import Mathlib

/-!
Shallow embedding of
`processor/resourcedetectionprocessor/internal/resourcedetection.go`
from merowing1279/opentelemetry-collector-contrib.

Modelling conventions:
* `pcommon.Value` becomes the inductive `Value`; the `float64` payload of a
  double value is modelled as its raw 64-bit pattern (`Float64 := Nat`) —
  the code never performs arithmetic on it, it is only carried around.
* `pcommon.Map` is a key-ordered association list.  `Map.Get` is a scan for
  the first matching key; `PutEmpty` followed by `CopyTo` replaces the value
  in place when the key exists and appends otherwise (`mapPut`).
* Go errors are modelled as `String` messages inside `Except`/`Option`.
* `context.Context` is modelled by its remaining-time budget (`GoContext`);
  `context.WithTimeout(ctx, d)` clips the budget to `d`.
* `sync.Once` is modelled by a `once : Bool` flag on the provider state and
  `Get` is a state transition; `detectCalls` counts executions of
  `detectResource` (instrumentation for the exactly-once property).
* Go hash maps (`map[string]interface{}`) produced for logging are modelled
  as association lists in `Range` order.
-/

/-- Raw 64-bit IEEE-754 pattern of a Go `float64`; the code under study only
moves these values, it never computes with them. -/
abbrev Float64 := Nat

/-- `pcommon.Value`: the tagged union of attribute values.  `empty` is
`ValueTypeEmpty`, `bytes` is `ValueTypeBytes`; both fall into the `default`
branch of `UnwrapAttribute`. -/
inductive Value where
  | bool (b : Bool)
  | int (i : Int)
  | double (d : Float64)
  | str (s : String)
  | slice (xs : List Value)
  | map (kvs : List (String × Value))
  | empty
  | bytes (bs : List Nat)

/-- A `pcommon.Map`: ordered association list from keys to values. -/
abbrev AttrMap := List (String × Value)

/-- `pcommon.Map.Get`: scan for the first entry with the given key. -/
def mapGet : AttrMap → String → Option Value
  | [], _ => none
  | (k', v) :: rest, k => if k' = k then some v else mapGet rest k

/-- `pcommon.Map.PutEmpty` followed by `Value.CopyTo`: replace the value in
place when the key exists, append a new entry otherwise. -/
def mapPut : AttrMap → String → Value → AttrMap
  | [], k, v => [(k, v)]
  | (k', v') :: rest, k, v =>
      if k' = k then (k, v) :: rest else (k', v') :: mapPut rest k v

/-- `pcommon.Resource`: an attribute map. -/
structure Resource where
  attributes : AttrMap

/-- `IsEmptyResource`: `res.Attributes().Len() == 0`. -/
def IsEmptyResource (res : Resource) : Bool :=
  res.attributes.length == 0

/-- `MergeSchemaURL`: keep the first non-empty schema URL. -/
def MergeSchemaURL (currentSchemaURL : String) (newSchemaURL : String) : String :=
  if currentSchemaURL = "" then newSchemaURL
  else if newSchemaURL = "" then currentSchemaURL
  else if currentSchemaURL = newSchemaURL then currentSchemaURL
  else currentSchemaURL

/-- Body of the `Range` loop of `MergeResource` when `overrideTo` is true:
unconditionally copy the entry into the accumulator. -/
def mergeStepTrue (toAttr : AttrMap) (kv : String × Value) : AttrMap :=
  mapPut toAttr kv.1 kv.2

/-- Body of the `Range` loop of `MergeResource` when `overrideTo` is false:
copy the entry only when the key is not already present. -/
def mergeStepFalse (toAttr : AttrMap) (kv : String × Value) : AttrMap :=
  match mapGet toAttr kv.1 with
  | some _ => toAttr
  | none => mapPut toAttr kv.1 kv.2

/-- `MergeResource(to, from, overrideTo)`: no-op when `from` is empty,
otherwise fold `from`'s entries into `to` in `from`'s iteration order. -/
def MergeResource (toRes : Resource) (fromRes : Resource) (overrideTo : Bool) : Resource :=
  if IsEmptyResource fromRes then toRes
  else
    ⟨fromRes.attributes.foldl
      (fun toAttr kv =>
        if overrideTo then mergeStepTrue toAttr kv else mergeStepFalse toAttr kv)
      toRes.attributes⟩

/-- `filterAttributes(am, attributesToKeep)`: when the keep-set is non-empty,
walk the map in iteration order (`RemoveIf`), retaining entries whose key is
in the set and recording the dropped keys in iteration order; when the
keep-set is empty, keep everything and report no drops.  Returns the
resulting map together with the dropped keys. -/
def filterAttributes (am : AttrMap) (attributesToKeep : List String) : AttrMap × List String :=
  if attributesToKeep.length > 0 then
    am.foldl
      (fun acc kv =>
        if attributesToKeep.contains kv.1 then (acc.1 ++ [kv], acc.2)
        else (acc.1, acc.2 ++ [kv.1]))
      ([], [])
  else (am, [])

/-- Plain (`interface`-typed) value produced for logging: the image of
`UnwrapAttribute`.  `nil` is Go's untyped nil and also stands for a nil
slice, which serialises identically (as null). -/
inductive PlainValue where
  | nil
  | bool (b : Bool)
  | int (i : Int)
  | double (d : Float64)
  | str (s : String)
  | arr (xs : List PlainValue)
  | map (kvs : List (String × PlainValue))

mutual

/-- `UnwrapAttribute`: convert a `pcommon.Value` to a plain value; scalar
variants are returned as their underlying scalars, slices and maps recurse,
every other variant (`default` branch) becomes nil. -/
def UnwrapAttribute : Value → PlainValue
  | Value.bool b => PlainValue.bool b
  | Value.int i => PlainValue.int i
  | Value.double d => PlainValue.double d
  | Value.str s => PlainValue.str s
  | Value.slice xs =>
      match getSerializableArray xs with
      | none => PlainValue.nil
      | some outArr => PlainValue.arr outArr
  | Value.map kvs => PlainValue.map (AttributesToMap kvs)
  | Value.empty => PlainValue.nil
  | Value.bytes _ => PlainValue.nil

/-- `getSerializableArray`: start from a nil slice (`none`) and append the
unwrapped elements; a zero-element input therefore stays nil. -/
def getSerializableArray : List Value → Option (List PlainValue)
  | [] => none
  | x :: rest =>
      some (UnwrapAttribute x :: (getSerializableArray rest).getD [])

/-- `AttributesToMap`: unwrap every entry of the map, in `Range` order. -/
def AttributesToMap : List (String × Value) → List (String × PlainValue)
  | [] => []
  | (k, v) :: rest => (k, UnwrapAttribute v) :: AttributesToMap rest

end

/-- A `context.Context`, reduced to its remaining-time budget in
nanoseconds (`none` is a context without deadline). -/
structure GoContext where
  timeoutBudget : Option Nat

/-- `context.WithTimeout(ctx, d)`: the derived context's budget is `d`,
clipped by the parent's budget when the parent already has one. -/
def GoContext.withTimeout (ctx : GoContext) (d : Nat) : GoContext :=
  { timeoutBudget :=
      some (match ctx.timeoutBudget with
            | none => d
            | some b => min b d) }

/-- The `Timeout` field of an `http.Client` (a duration in nanoseconds). -/
structure HTTPClient where
  Timeout : Nat

/-- `resourceResult`: the memoized `(resource, schemaURL, err)` triple. -/
structure ResourceResult where
  resource : Resource
  schemaURL : String
  err : Option String

/-- A `Detector`: given a context, produce a resource and a schema URL, or
fail with an error. -/
abbrev Detector := GoContext → Except String (Resource × String)

/-- `ResourceProvider` state.  `once` is the `sync.Once` completion flag and
`detectCalls` counts how many times `detectResource` has executed
(instrumentation for the exactly-once property, not a Go field). -/
structure ResourceProvider where
  logger : Unit
  timeout : Nat
  detectors : List Detector
  detectedResource : Option ResourceResult
  once : Bool
  attributesToKeep : List String
  detectCalls : Nat

/-- `NewResourceProvider`. -/
def NewResourceProvider (logger : Unit) (timeout : Nat) (attributesToKeep : List String)
    (detectors : List Detector) : ResourceProvider :=
  { logger := logger
    timeout := timeout
    detectors := detectors
    detectedResource := none
    once := false
    attributesToKeep := attributesToKeep
    detectCalls := 0 }

/-- Body of the detector loop of `detectResource`: on error log a warning and
keep the accumulator; on success merge the schema URL and the resource
(`overrideTo = false`). -/
def detectStep (ctx : GoContext) (acc : Resource × String) (detector : Detector) :
    Resource × String :=
  match detector ctx with
  | Except.error _ => acc
  | Except.ok (r, schemaURL) =>
      (MergeResource acc.1 r false, MergeSchemaURL acc.2 schemaURL)

/-- Whether a detector succeeds under the given context. -/
def detectorSucceeds (ctx : GoContext) (detector : Detector) : Bool :=
  match detector ctx with
  | Except.ok _ => true
  | Except.error _ => false

/-- `ResourceProvider.detectResource`: run every detector in order against an
empty accumulator, apply attribute filtering, and store the triple; the `err`
field is never written and stays nil. -/
def detectResource (ctx : GoContext) (p : ResourceProvider) : ResourceResult :=
  let detected := p.detectors.foldl (detectStep ctx) (⟨[]⟩, "")
  let filtered := filterAttributes detected.1.attributes p.attributesToKeep
  { resource := ⟨filtered.1⟩
    schemaURL := detected.2
    err := none }

/-- `ResourceProvider.Get`: under `once.Do`, derive a context bounded by
`client.Timeout` and run `detectResource`; afterwards return the memoized
triple.  Modelled as a state transition returning the new provider state
together with the returned triple. -/
def ResourceProvider.Get (p : ResourceProvider) (ctx : GoContext) (client : HTTPClient) :
    ResourceProvider × ResourceResult :=
  let p' :=
    if p.once then p
    else
      { p with
          detectedResource := some (detectResource (ctx.withTimeout client.Timeout) p)
          once := true
          detectCalls := p.detectCalls + 1 }
  (p', p'.detectedResource.getD { resource := ⟨[]⟩, schemaURL := "", err := none })

/-- A sequence of `Get` calls against one provider instance, threading the
provider state and collecting every returned triple. -/
def GetSeq (p : ResourceProvider) : List (GoContext × HTTPClient) →
    ResourceProvider × List ResourceResult
  | [] => (p, [])
  | c :: rest =>
      let step := ResourceProvider.Get p c.1 c.2
      let tail := GetSeq step.1 rest
      (tail.1, step.2 :: tail.2)

/-- `DetectorType`. -/
abbrev DetectorType := String

/-- `component.ProcessorCreateSettings`, reduced to the logger it carries. -/
structure CreateSettings where
  logger : Unit

/-- A detector-specific configuration blob; its content is never inspected by
the code under study, so it is modelled as a bare token. -/
structure DetectorConfig where
  blob : Nat

/-- `DetectorFactory`: build a detector from settings and configuration. -/
abbrev DetectorFactory := CreateSettings → DetectorConfig → Except String Detector

/-- The factory registry `ResourceProviderFactory.detectors`, modelled as an
association list with Go-map (first match) lookup. -/
def lookupFactory : List (DetectorType × DetectorFactory) → DetectorType →
    Option DetectorFactory
  | [], _ => none
  | (t, f) :: rest, detectorType =>
      if t = detectorType then some f else lookupFactory rest detectorType

/-- One iteration of the `getDetectors` loop: look up the factory for a type
and invoke it, producing the same error messages as the Go code. -/
def buildOne (reg : List (DetectorType × DetectorFactory)) (params : CreateSettings)
    (detectorConfigs : DetectorType → DetectorConfig) (detectorType : DetectorType) :
    Except String Detector :=
  match lookupFactory reg detectorType with
  | none => Except.error ("invalid detector key: " ++ detectorType)
  | some detectorFactory =>
      match detectorFactory params (detectorConfigs detectorType) with
      | Except.error e =>
          Except.error ("failed creating detector type \"" ++ detectorType ++ "\": " ++ e)
      | Except.ok detector => Except.ok detector

/-- `ResourceProviderFactory.getDetectors`: process the requested types in
order, failing on a missing registry entry or a failing constructor and
otherwise accumulating the detectors in request order. -/
def getDetectors (reg : List (DetectorType × DetectorFactory)) (params : CreateSettings)
    (detectorConfigs : DetectorType → DetectorConfig) :
    List DetectorType → Except String (List Detector)
  | [] => Except.ok []
  | detectorType :: rest =>
      match lookupFactory reg detectorType with
      | none => Except.error ("invalid detector key: " ++ detectorType)
      | some detectorFactory =>
          match detectorFactory params (detectorConfigs detectorType) with
          | Except.error e =>
              Except.error ("failed creating detector type \"" ++ detectorType ++ "\": " ++ e)
          | Except.ok detector =>
              match getDetectors reg params detectorConfigs rest with
              | Except.error e => Except.error e
              | Except.ok detectors => Except.ok (detector :: detectors)

/-- `ResourceProviderFactory.CreateResourceProvider`: build the detectors,
then the provider; the keep-set built from `attributes` is modelled by the
list itself (used only through membership). -/
def CreateResourceProvider (reg : List (DetectorType × DetectorFactory))
    (params : CreateSettings) (timeout : Nat) (attributes : List String)
    (detectorConfigs : DetectorType → DetectorConfig)
    (detectorTypes : List DetectorType) : Except String ResourceProvider :=
  match getDetectors reg params detectorConfigs detectorTypes with
  | Except.error e => Except.error e
  | Except.ok detectors =>
      Except.ok (NewResourceProvider () timeout attributes detectors)

/-! ### Concrete fixtures used to evaluate the development on closed inputs -/

/-- A detector that always succeeds with attribute `k = "a"` and schema URL
`"v1"`. -/
def detOkA : Detector := fun _ => Except.ok (⟨[("k", Value.str "a")]⟩, "v1")

/-- A detector that always succeeds with attribute `k = "b"` and schema URL
`"v2"`. -/
def detOkB : Detector := fun _ => Except.ok (⟨[("k", Value.str "b")]⟩, "v2")

/-- A detector that always fails. -/
def detFail : Detector := fun _ => Except.error "detector failed"

/-- A detector that reports the timeout budget of the context it was given,
making the deadline wired through `Get` observable from the outside. -/
def ctxProbe : Detector := fun ctx =>
  Except.ok (⟨[("ctx-timeout", Value.int (ctx.timeoutBudget.getD 0))]⟩, "")

/-- A provider over `[detOkA, detOkB]` with no allow-list. -/
def provAB : ResourceProvider := NewResourceProvider () 5 [] [detOkA, detOkB]

/-- A provider over `[detFail, detOkB]` with no allow-list. -/
def provFB : ResourceProvider := NewResourceProvider () 5 [] [detFail, detOkB]

/-- A context without a deadline. -/
def ctxNone : GoContext := ⟨none⟩

/-- An HTTP client with a 10-unit timeout. -/
def clientW : HTTPClient := ⟨10⟩

/-- A factory that always builds `detOkA`. -/
def facOk : DetectorFactory := fun _ _ => Except.ok detOkA

/-- A registry containing only the type `"env"`. -/
def regW : List (DetectorType × DetectorFactory) := [("env", facOk)]

/-- Concrete settings. -/
def paramsW : CreateSettings := ⟨()⟩

/-- A constant configuration resolver. -/
def cfgW : DetectorType → DetectorConfig := fun _ => ⟨0⟩

/-! ### Lemmas about the association-list map operations -/

theorem mapGet_mapPut (m : AttrMap) (k x : String) (v : Value) :
    mapGet (mapPut m k v) x = if x = k then some v else mapGet m x := by
  induction m with
  | nil =>
      by_cases h : k = x
      · subst h; simp [mapPut, mapGet]
      · simp [mapPut, mapGet, if_neg h, if_neg (Ne.symm h)]
  | cons hd tl ih =>
      obtain ⟨k', v'⟩ := hd
      by_cases hk : k' = k
      · subst hk
        by_cases hx : k' = x
        · subst hx; simp [mapPut, mapGet]
        · simp [mapPut, mapGet, if_neg hx, if_neg (Ne.symm hx)]
      · by_cases hx : k' = x
        · subst hx
          simp [mapPut, mapGet, if_neg hk, if_neg (Ne.symm hk)]
        · simp [mapPut, mapGet, if_neg hk, if_neg hx, ih]

theorem mapGet_eq_none_of_not_mem (m : AttrMap) (k : String)
    (h : k ∉ m.map Prod.fst) : mapGet m k = none := by
  induction m with
  | nil => simp [mapGet]
  | cons hd tl ih =>
      obtain ⟨k', v'⟩ := hd
      simp only [List.map_cons, List.mem_cons] at h
      push_neg at h
      simp [mapGet, if_neg (Ne.symm h.1), ih h.2]

theorem mapGet_append (m1 m2 : AttrMap) (k : String) :
    mapGet (m1 ++ m2) k = (mapGet m1 k).orElse fun _ => mapGet m2 k := by
  induction m1 with
  | nil => simp [mapGet, Option.orElse]
  | cons hd tl ih =>
      obtain ⟨k', v'⟩ := hd
      by_cases h : k' = k
      · simp [mapGet, if_pos h, Option.orElse]
      · simp [mapGet, if_neg h, ih]

theorem mapPut_of_not_found (m : AttrMap) (k : String) (v : Value)
    (h : mapGet m k = none) : mapPut m k v = m ++ [(k, v)] := by
  induction m with
  | nil => simp [mapPut]
  | cons hd tl ih =>
      obtain ⟨k', v'⟩ := hd
      by_cases hk : k' = k
      · simp [mapGet, if_pos hk] at h
      · simp only [mapGet, if_neg hk] at h
        simp [mapPut, if_neg hk, ih h]

/-! ### Lemmas about `MergeResource` -/

theorem isEmptyResource_iff (res : Resource) :
    IsEmptyResource res = true ↔ res.attributes = [] := by
  cases res with
  | mk attrs => simp [IsEmptyResource, List.length_eq_zero]

theorem mergeResource_false_eq (toRes fromRes : Resource) :
    MergeResource toRes fromRes false =
      if IsEmptyResource fromRes then toRes
      else ⟨fromRes.attributes.foldl mergeStepFalse toRes.attributes⟩ := rfl

theorem mergeResource_true_eq (toRes fromRes : Resource) :
    MergeResource toRes fromRes true =
      if IsEmptyResource fromRes then toRes
      else ⟨fromRes.attributes.foldl mergeStepTrue toRes.attributes⟩ := rfl

theorem foldl_mergeFalse_mapGet (l : AttrMap) (acc : AttrMap) (k : String) :
    mapGet (l.foldl mergeStepFalse acc) k
      = (mapGet acc k).orElse fun _ => mapGet l k := by
  induction l generalizing acc with
  | nil => cases h : mapGet acc k <;> simp [mapGet, Option.orElse, h]
  | cons hd tl ih =>
      obtain ⟨k', v⟩ := hd
      simp only [List.foldl_cons]
      rw [ih]
      cases h : mapGet acc k' with
      | some w =>
          rw [show mergeStepFalse acc (k', v) = acc from by simp [mergeStepFalse, h]]
          by_cases hk : k' = k
          · subst hk
            simp [mapGet, h, Option.orElse]
          · simp [mapGet, if_neg hk]
      | none =>
          rw [show mergeStepFalse acc (k', v) = mapPut acc k' v from by
            simp [mergeStepFalse, h]]
          by_cases hk : k' = k
          · subst hk
            simp [mapGet_mapPut, mapGet, h, Option.orElse]
          · simp [mapGet_mapPut, if_neg (Ne.symm hk), mapGet, if_neg hk]

theorem foldl_mergeTrue_mapGet (l : AttrMap) (acc : AttrMap) (k : String)
    (hnd : (l.map Prod.fst).Nodup) :
    mapGet (l.foldl mergeStepTrue acc) k
      = (mapGet l k).orElse fun _ => mapGet acc k := by
  induction l generalizing acc with
  | nil => simp [mapGet, Option.orElse]
  | cons hd tl ih =>
      obtain ⟨k', v⟩ := hd
      simp only [List.map_cons, List.nodup_cons] at hnd
      simp only [List.foldl_cons]
      rw [ih _ hnd.2]
      by_cases hk : k' = k
      · subst hk
        have htl : mapGet tl k' = none := mapGet_eq_none_of_not_mem _ _ hnd.1
        simp [mergeStepTrue, mapGet_mapPut, mapGet, htl, Option.orElse]
      · simp [mergeStepTrue, mapGet_mapPut, if_neg (Ne.symm hk), mapGet, if_neg hk]

theorem foldl_mergeFalse_append (l : AttrMap) (acc : AttrMap)
    (hnd : (l.map Prod.fst).Nodup) :
    l.foldl mergeStepFalse acc
      = acc ++ l.filter (fun kv => (mapGet acc kv.1).isNone) := by
  induction l generalizing acc with
  | nil => simp
  | cons hd tl ih =>
      obtain ⟨k', v⟩ := hd
      simp only [List.map_cons, List.nodup_cons] at hnd
      simp only [List.foldl_cons]
      cases h : mapGet acc k' with
      | some w =>
          rw [show mergeStepFalse acc (k', v) = acc from by simp [mergeStepFalse, h]]
          rw [ih _ hnd.2]
          simp [List.filter_cons, h]
      | none =>
          rw [show mergeStepFalse acc (k', v) = acc ++ [(k', v)] from by
            simp [mergeStepFalse, h, mapPut_of_not_found _ _ _ h]]
          rw [ih _ hnd.2]
          have hfilter : tl.filter (fun kv => (mapGet (acc ++ [(k', v)]) kv.1).isNone)
              = tl.filter (fun kv => (mapGet acc kv.1).isNone) := by
            apply List.filter_congr
            intro kv hkv
            have hne : kv.1 ≠ k' := by
              intro he
              exact hnd.1 (he ▸ List.mem_map_of_mem Prod.fst hkv)
            rw [mapGet_append]
            cases hacc : mapGet acc kv.1 <;>
              simp [Option.orElse, mapGet, if_neg (Ne.symm hne), hacc]
          rw [hfilter]
          simp [List.filter_cons, h, List.append_assoc]

theorem mergeResource_false_mapGet (toRes fromRes : Resource) (k : String) :
    mapGet (MergeResource toRes fromRes false).attributes k
      = (mapGet toRes.attributes k).orElse fun _ => mapGet fromRes.attributes k := by
  rw [mergeResource_false_eq]
  by_cases h : IsEmptyResource fromRes
  · have he : fromRes.attributes = [] := (isEmptyResource_iff _).mp h
    rw [if_pos h]
    cases hg : mapGet toRes.attributes k <;> simp [he, mapGet, Option.orElse, hg]
  · rw [if_neg h]
    exact foldl_mergeFalse_mapGet _ _ _

theorem mergeResource_true_mapGet (toRes fromRes : Resource) (k : String)
    (hnd : (fromRes.attributes.map Prod.fst).Nodup) :
    mapGet (MergeResource toRes fromRes true).attributes k
      = (mapGet fromRes.attributes k).orElse fun _ => mapGet toRes.attributes k := by
  rw [mergeResource_true_eq]
  by_cases h : IsEmptyResource fromRes
  · have he : fromRes.attributes = [] := (isEmptyResource_iff _).mp h
    rw [if_pos h]
    simp [he, mapGet, Option.orElse]
  · rw [if_neg h]
    exact foldl_mergeTrue_mapGet _ _ _ hnd

/-! ### Lemmas about `filterAttributes`, `detectResource` and `Get` -/

theorem foldl_filterAttributes_eq (am : AttrMap) (keep : List String)
    (acc : AttrMap × List String) :
    am.foldl
      (fun acc kv =>
        if keep.contains kv.1 then (acc.1 ++ [kv], acc.2)
        else (acc.1, acc.2 ++ [kv.1]))
      acc
      = (acc.1 ++ am.filter (fun kv => keep.contains kv.1),
         acc.2 ++ (am.filter (fun kv => !keep.contains kv.1)).map Prod.fst) := by
  induction am generalizing acc with
  | nil => simp
  | cons hd tl ih =>
      simp only [List.foldl_cons]
      rw [ih]
      cases h : keep.contains hd.1 with
      | false =>
          have hm : hd.1 ∉ keep := by simpa using h
          simp [List.filter_cons, h, hm, List.append_assoc]
      | true =>
          have hm : hd.1 ∈ keep := by simpa using h
          simp [List.filter_cons, h, hm, List.append_assoc]

theorem filterAttributes_eq_filter (am : AttrMap) (keep : List String)
    (h : keep ≠ []) :
    filterAttributes am keep
      = (am.filter (fun kv => keep.contains kv.1),
         (am.filter (fun kv => !keep.contains kv.1)).map Prod.fst) := by
  have hlen : keep.length > 0 := List.length_pos.mpr h
  rw [filterAttributes, if_pos hlen, foldl_filterAttributes_eq]
  simp

theorem foldl_detectStep_filter (ctx : GoContext) (ds : List Detector)
    (acc : Resource × String) :
    ds.foldl (detectStep ctx) acc
      = (ds.filter (detectorSucceeds ctx)).foldl (detectStep ctx) acc := by
  induction ds generalizing acc with
  | nil => rfl
  | cons d tl ih =>
      cases h : d ctx with
      | error e =>
          have hstep : detectStep ctx acc d = acc := by simp [detectStep, h]
          have hs : detectorSucceeds ctx d = false := by simp [detectorSucceeds, h]
          simp only [List.foldl_cons, List.filter_cons, hs, hstep]
          simpa using ih acc
      | ok rs =>
          have hs : detectorSucceeds ctx d = true := by simp [detectorSucceeds, h]
          simp only [List.foldl_cons, List.filter_cons, hs]
          simpa using ih (detectStep ctx acc d)

theorem get_of_once (p : ResourceProvider) (ctx : GoContext) (client : HTTPClient)
    (h : p.once = true) :
    p.Get ctx client
      = (p, p.detectedResource.getD { resource := ⟨[]⟩, schemaURL := "", err := none }) := by
  simp [ResourceProvider.Get, h]

theorem get_of_fresh (p : ResourceProvider) (ctx : GoContext) (client : HTTPClient)
    (h : p.once = false) :
    p.Get ctx client
      = ({ p with
            detectedResource := some (detectResource (ctx.withTimeout client.Timeout) p)
            once := true
            detectCalls := p.detectCalls + 1 },
         detectResource (ctx.withTimeout client.Timeout) p) := by
  simp [ResourceProvider.Get, h]

theorem getSeq_of_once (p : ResourceProvider) (calls : List (GoContext × HTTPClient))
    (h : p.once = true) :
    GetSeq p calls
      = (p, calls.map fun _ =>
          p.detectedResource.getD { resource := ⟨[]⟩, schemaURL := "", err := none }) := by
  induction calls with
  | nil => simp [GetSeq]
  | cons c rest ih => simp [GetSeq, get_of_once p c.1 c.2 h, ih]

theorem getSeq_fresh (p : ResourceProvider) (c : GoContext × HTTPClient)
    (rest : List (GoContext × HTTPClient)) (h : p.once = false) :
    GetSeq p (c :: rest)
      = ({ p with
            detectedResource := some (detectResource (c.1.withTimeout c.2.Timeout) p)
            once := true
            detectCalls := p.detectCalls + 1 },
         detectResource (c.1.withTimeout c.2.Timeout) p
           :: rest.map fun _ => detectResource (c.1.withTimeout c.2.Timeout) p) := by
  simp only [GetSeq]
  rw [get_of_fresh p c.1 c.2 h]
  rw [show (({ p with
        detectedResource := some (detectResource (c.1.withTimeout c.2.Timeout) p)
        once := true
        detectCalls := p.detectCalls + 1 } : ResourceProvider),
      detectResource (c.1.withTimeout c.2.Timeout) p).1
    = { p with
        detectedResource := some (detectResource (c.1.withTimeout c.2.Timeout) p)
        once := true
        detectCalls := p.detectCalls + 1 } from rfl]
  rw [getSeq_of_once { p with
        detectedResource := some (detectResource (c.1.withTimeout c.2.Timeout) p)
        once := true
        detectCalls := p.detectCalls + 1 } rest rfl]
  rfl

/-! ### Lemmas about `UnwrapAttribute` -/

theorem getSerializableArray_getD (xs : List Value) :
    (getSerializableArray xs).getD [] = xs.map UnwrapAttribute := by
  induction xs with
  | nil => simp [getSerializableArray]
  | cons x rest ih => simp [getSerializableArray, ih]

theorem getSerializableArray_cons (x : Value) (xs : List Value) :
    getSerializableArray (x :: xs) = some ((x :: xs).map UnwrapAttribute) := by
  simp [getSerializableArray, getSerializableArray_getD]

theorem attributesToMap_eq (kvs : List (String × Value)) :
    AttributesToMap kvs = kvs.map fun kv => (kv.1, UnwrapAttribute kv.2) := by
  induction kvs with
  | nil => simp [AttributesToMap]
  | cons hd tl ih =>
      obtain ⟨k, v⟩ := hd
      simp [AttributesToMap, ih]

/-! ### Lemmas about `getDetectors` -/

theorem getDetectors_cons_err (reg : List (DetectorType × DetectorFactory))
    (params : CreateSettings) (cfg : DetectorType → DetectorConfig)
    (t : DetectorType) (rest : List DetectorType) (e : String)
    (h : buildOne reg params cfg t = Except.error e) :
    getDetectors reg params cfg (t :: rest) = Except.error e := by
  unfold buildOne at h
  simp only [getDetectors]
  cases hf : lookupFactory reg t with
  | none =>
      simp only [hf] at h ⊢
      injection h with h'
      rw [h']
  | some f =>
      simp only [hf] at h ⊢
      cases hc : f params (cfg t) with
      | error e' =>
          simp only [hc] at h ⊢
          injection h with h'
          rw [h']
      | ok det =>
          simp only [hc] at h
          exact absurd h (by simp)

theorem getDetectors_cons_ok (reg : List (DetectorType × DetectorFactory))
    (params : CreateSettings) (cfg : DetectorType → DetectorConfig)
    (t : DetectorType) (rest : List DetectorType) (det : Detector)
    (h : buildOne reg params cfg t = Except.ok det) :
    getDetectors reg params cfg (t :: rest)
      = match getDetectors reg params cfg rest with
        | Except.error e => Except.error e
        | Except.ok ds => Except.ok (det :: ds) := by
  unfold buildOne at h
  simp only [getDetectors]
  cases hf : lookupFactory reg t with
  | none =>
      simp only [hf] at h
      exact absurd h (by simp)
  | some f =>
      simp only [hf] at h ⊢
      cases hc : f params (cfg t) with
      | error e' =>
          simp only [hc] at h
          exact absurd h (by simp)
      | ok det' =>
          simp only [hc] at h ⊢
          injection h with h'
          rw [h']

/-! ### Claim theorems -/

/-- C5: for all strings, `MergeSchemaURL` returns the incoming URL when the
current one is empty, the current one when the incoming is empty, either when
they are equal, and the current one unchanged when both are non-empty and
different: the first non-empty schema URL wins and is sticky. -/
theorem mergeSchemaURL_first_nonempty_wins (current incoming : String) :
    MergeSchemaURL "" incoming = incoming ∧
    MergeSchemaURL current "" = current ∧
    MergeSchemaURL current current = current ∧
    (current ≠ "" → incoming ≠ "" → MergeSchemaURL current incoming = current) := by
  refine ⟨?_, ?_, ?_, ?_⟩
  · simp [MergeSchemaURL]
  · by_cases h : current = "" <;> simp [MergeSchemaURL, h]
  · by_cases h : current = "" <;> simp [MergeSchemaURL, h]
  · intro h1 h2
    by_cases h3 : current = incoming <;> simp [MergeSchemaURL, h1, h2, h3]

/-- Witness for C5 at `("v1", "v2")`: both non-empty and different, so the
current URL is kept. -/
theorem mergeSchemaURL_first_nonempty_wins_witness :
    MergeSchemaURL "v1" "v2" = "v1" :=
  (mergeSchemaURL_first_nonempty_wins "v1" "v2").2.2.2 (by decide) (by decide)

/-- C6: `MergeResource` is a no-op when `from` has zero attributes; otherwise
with `overrideTo = true` the value of `from` wins for every key of `from`,
with `overrideTo = false` a key already in `to` keeps `to`'s value
(first-write-wins) and the keys new to `to` are appended in `from`'s
iteration order. -/
theorem mergeResource_spec (toRes fromRes : Resource) (k : String)
    (hnd : (fromRes.attributes.map Prod.fst).Nodup) :
    (∀ b, IsEmptyResource fromRes = true → MergeResource toRes fromRes b = toRes) ∧
    mapGet (MergeResource toRes fromRes true).attributes k
      = ((mapGet fromRes.attributes k).orElse fun _ => mapGet toRes.attributes k) ∧
    mapGet (MergeResource toRes fromRes false).attributes k
      = ((mapGet toRes.attributes k).orElse fun _ => mapGet fromRes.attributes k) ∧
    (MergeResource toRes fromRes false).attributes
      = toRes.attributes
          ++ fromRes.attributes.filter fun kv => (mapGet toRes.attributes kv.1).isNone := by
  refine ⟨?_, mergeResource_true_mapGet _ _ _ hnd, mergeResource_false_mapGet _ _ _, ?_⟩
  · intro b h
    unfold MergeResource
    rw [if_pos h]
  · rw [mergeResource_false_eq]
    by_cases h : IsEmptyResource fromRes
    · have he := (isEmptyResource_iff _).mp h
      rw [if_pos h, he]
      simp
    · rw [if_neg h]
      simpa using foldl_mergeFalse_append _ _ hnd

/-- Witness for C6: merging `{k: "b"}` into `{k: "a"}` without override keeps
`"a"`. -/
theorem mergeResource_spec_witness :
    mapGet (MergeResource (Resource.mk [("k", Value.str "a")])
        (Resource.mk [("k", Value.str "b")]) false).attributes "k"
      = some (Value.str "a") := by
  have h := mergeResource_spec (Resource.mk [("k", Value.str "a")])
      (Resource.mk [("k", Value.str "b")]) "k" (by simp)
  rw [h.2.2.1]
  rfl

/-- C7: `filterAttributes` with an empty keep-set keeps every attribute and
reports no dropped keys; with a non-empty keep-set it removes exactly the
attributes whose keys are not in the set and returns the removed keys in the
map's iteration order. -/
theorem filterAttributes_spec (am : AttrMap) (attributesToKeep : List String) :
    (attributesToKeep = [] → filterAttributes am attributesToKeep = (am, [])) ∧
    (attributesToKeep ≠ [] →
      filterAttributes am attributesToKeep
        = (am.filter (fun kv => attributesToKeep.contains kv.1),
           (am.filter (fun kv => !attributesToKeep.contains kv.1)).map Prod.fst)) := by
  constructor
  · intro h
    subst h
    rfl
  · exact filterAttributes_eq_filter am attributesToKeep

/-- Witness for C7: filtering `{a, b, c}` with allow-list `{a, c}` keeps
`a` and `c` and drops `b`. -/
theorem filterAttributes_spec_witness :
    filterAttributes [("a", Value.int 1), ("b", Value.int 2), ("c", Value.int 3)] ["a", "c"]
      = ([("a", Value.int 1), ("c", Value.int 3)], ["b"]) := by
  rw [(filterAttributes_spec
      [("a", Value.int 1), ("b", Value.int 2), ("c", Value.int 3)] ["a", "c"]).2
      (by decide)]
  rfl

/-- C9 counterexample: the conversion does not preserve the structure of a
zero-element array — `UnwrapAttribute` maps the empty slice to nil, not to an
empty plain array, so the conversion is not lossless on the array variant. -/
theorem unwrapAttribute_empty_array_counterexample :
    UnwrapAttribute (Value.slice []) = PlainValue.nil ∧
    UnwrapAttribute (Value.slice []) ≠ PlainValue.arr (([] : List Value).map UnwrapAttribute) := by
  have h : UnwrapAttribute (Value.slice []) = PlainValue.nil := by
    simp [UnwrapAttribute, getSerializableArray]
  refine ⟨h, ?_⟩
  rw [h]
  simp

/-- C9 amended: `UnwrapAttribute` is total over every variant; Bool, Int,
Double and String values are returned as their exact underlying scalars, maps
and non-empty arrays recurse element-wise preserving structure and leaf
values, while empty arrays — like the unsupported variants — convert to
nil. -/
theorem unwrapAttribute_amended_spec :
    (∀ b, UnwrapAttribute (Value.bool b) = PlainValue.bool b) ∧
    (∀ i, UnwrapAttribute (Value.int i) = PlainValue.int i) ∧
    (∀ d, UnwrapAttribute (Value.double d) = PlainValue.double d) ∧
    (∀ s, UnwrapAttribute (Value.str s) = PlainValue.str s) ∧
    (∀ x xs, UnwrapAttribute (Value.slice (x :: xs))
        = PlainValue.arr ((x :: xs).map UnwrapAttribute)) ∧
    (∀ kvs, UnwrapAttribute (Value.map kvs)
        = PlainValue.map (kvs.map fun kv => (kv.1, UnwrapAttribute kv.2))) ∧
    UnwrapAttribute (Value.slice []) = PlainValue.nil ∧
    UnwrapAttribute Value.empty = PlainValue.nil ∧
    (∀ bs, UnwrapAttribute (Value.bytes bs) = PlainValue.nil) := by
  refine ⟨fun b => by simp [UnwrapAttribute],
    fun i => by simp [UnwrapAttribute],
    fun d => by simp [UnwrapAttribute],
    fun s => by simp [UnwrapAttribute],
    fun x xs => by simp [UnwrapAttribute, getSerializableArray_cons],
    fun kvs => by simp [UnwrapAttribute, attributesToMap_eq],
    by simp [UnwrapAttribute, getSerializableArray],
    by simp [UnwrapAttribute],
    fun bs => by simp [UnwrapAttribute]⟩

/-- C10: a zero-element array stays a nil slice in `getSerializableArray`, so
its inspectable form is nil — indistinguishable from the null marker produced
for unsupported variants. -/
theorem getSerializableArray_empty_is_nil :
    getSerializableArray [] = none ∧
    UnwrapAttribute (Value.slice []) = PlainValue.nil ∧
    UnwrapAttribute (Value.slice []) = UnwrapAttribute Value.empty := by
  refine ⟨by simp [getSerializableArray], ?_, ?_⟩ <;>
    simp [UnwrapAttribute, getSerializableArray]

/-- C1: over any sequence of `Get` calls on a fresh provider instance,
`detectResource` executes at most once, every returned triple is exactly the
memoized triple stored in `detectedResource`, and all returned triples are
identical. -/
theorem resourceProvider_get_exactly_once (p : ResourceProvider)
    (calls : List (GoContext × HTTPClient))
    (h1 : p.once = false) (h2 : p.detectCalls = 0) :
    (GetSeq p calls).1.detectCalls ≤ 1 ∧
    (∀ r ∈ (GetSeq p calls).2, (GetSeq p calls).1.detectedResource = some r) ∧
    ∀ r1 ∈ (GetSeq p calls).2, ∀ r2 ∈ (GetSeq p calls).2, r1 = r2 := by
  cases calls with
  | nil =>
      refine ⟨by simp [GetSeq, h2], by simp [GetSeq], by simp [GetSeq]⟩
  | cons c rest =>
      rw [getSeq_fresh p c rest h1]
      have hall : ∀ r ∈ (detectResource (c.1.withTimeout c.2.Timeout) p
          :: rest.map fun _ => detectResource (c.1.withTimeout c.2.Timeout) p),
          r = detectResource (c.1.withTimeout c.2.Timeout) p := by
        intro r hr
        rcases List.mem_cons.mp hr with h | h
        · exact h
        · rcases List.mem_map.mp h with ⟨_, _, h⟩
          exact h.symm
      refine ⟨by simp [h2], ?_, ?_⟩
      · intro r hr
        rw [hall r hr]
      · intro r1 hr1 r2 hr2
        rw [hall r1 hr1, hall r2 hr2]

/-- Witness for C1: two consecutive `Get` calls on a fresh provider run
`detectResource` at most once. -/
theorem resourceProvider_get_exactly_once_witness :
    (GetSeq provAB [(ctxNone, clientW), (ctxNone, clientW)]).1.detectCalls ≤ 1 :=
  (resourceProvider_get_exactly_once provAB
    [(ctxNone, clientW), (ctxNone, clientW)] rfl rfl).1

/-- C2: with detectors `[d1, d2]` both succeeding and both producing a value
for key `k`, the resource returned by `Get` holds `d1`'s value for `k`:
earlier detectors in the configured order take precedence (the merge always
runs with `overrideTo = false`). -/
theorem get_merge_precedence (p : ResourceProvider) (d1 d2 : Detector)
    (ctx : GoContext) (client : HTTPClient) (k : String) (a b : Value)
    (r1 r2 : Resource) (s1 s2 : String)
    (hdet : p.detectors = [d1, d2]) (honce : p.once = false)
    (hkeep : p.attributesToKeep = [])
    (h1 : d1 (ctx.withTimeout client.Timeout) = Except.ok (r1, s1))
    (h2 : d2 (ctx.withTimeout client.Timeout) = Except.ok (r2, s2))
    (ha : mapGet r1.attributes k = some a)
    (hb : mapGet r2.attributes k = some b) :
    mapGet ((p.Get ctx client).2.resource).attributes k = some a := by
  rw [get_of_fresh p ctx client honce]
  unfold detectResource
  rw [hdet, hkeep]
  simp only [List.foldl_cons, List.foldl_nil]
  rw [show detectStep (ctx.withTimeout client.Timeout) (⟨[]⟩, "") d1
      = (MergeResource ⟨[]⟩ r1 false, MergeSchemaURL "" s1) from by
    simp [detectStep, h1]]
  rw [show detectStep (ctx.withTimeout client.Timeout)
        (MergeResource ⟨[]⟩ r1 false, MergeSchemaURL "" s1) d2
      = (MergeResource (MergeResource ⟨[]⟩ r1 false) r2 false,
         MergeSchemaURL (MergeSchemaURL "" s1) s2) from by
    simp [detectStep, h2]]
  show mapGet (filterAttributes
      (MergeResource (MergeResource ⟨[]⟩ r1 false) r2 false).attributes []).1 k = some a
  rw [show filterAttributes
      (MergeResource (MergeResource ⟨[]⟩ r1 false) r2 false).attributes []
      = ((MergeResource (MergeResource ⟨[]⟩ r1 false) r2 false).attributes, []) from rfl]
  rw [mergeResource_false_mapGet, mergeResource_false_mapGet]
  simp [mapGet, ha, Option.orElse]

/-- Witness for C2: both detectors of `provAB` produce `k`, and `Get` returns
`detOkA`'s value `"a"`. -/
theorem get_merge_precedence_witness :
    mapGet ((provAB.Get ctxNone clientW).2.resource).attributes "k"
      = some (Value.str "a") :=
  get_merge_precedence provAB detOkA detOkB ctxNone clientW "k"
    (Value.str "a") (Value.str "b")
    ⟨[("k", Value.str "a")]⟩ ⟨[("k", Value.str "b")]⟩ "v1" "v2"
    rfl rfl rfl rfl rfl rfl rfl

/-- C4: the `err` component of the triple returned by `Get` is always nil,
and a detector pass is unchanged when the failing detectors are removed from
the configured sequence: a failing detector's schema URL and attributes are
simply absent from the merge and detection continues in order. -/
theorem detect_partial_failure (p : ResourceProvider) (ctx : GoContext)
    (client : HTTPClient) (honce : p.once = false) :
    ((p.Get ctx client).2).err = none ∧
    ∀ ctx2 : GoContext,
      detectResource ctx2 p
        = detectResource ctx2
            { p with detectors := p.detectors.filter (detectorSucceeds ctx2) } := by
  constructor
  · rw [get_of_fresh p ctx client honce]
    rfl
  · intro ctx2
    unfold detectResource
    rw [foldl_detectStep_filter]

/-- Witness for C4: with `provFB`'s first detector failing, `Get` still
reports no error. -/
theorem detect_partial_failure_witness :
    ((provFB.Get ctxNone clientW).2).err = none :=
  (detect_partial_failure provFB ctxNone clientW rfl).1

/-- C8: `getDetectors` processes the requested types in order; when it
succeeds, the produced sequence has one detector per requested type, built by
the registry factory for that type, in request order; when a prefix of the
request builds fine and the next type fails (missing from the registry or a
failing constructor), it fails with exactly that first error. -/
theorem getDetectors_spec (reg : List (DetectorType × DetectorFactory))
    (params : CreateSettings) (cfg : DetectorType → DetectorConfig) :
    (∀ types l, getDetectors reg params cfg types = Except.ok l →
        l.length = types.length ∧
        ∀ i (hi : i < types.length) (hl : i < l.length),
          buildOne reg params cfg (types.get ⟨i, hi⟩) = Except.ok (l.get ⟨i, hl⟩)) ∧
    (∀ pre dt post e,
        (∀ d ∈ pre, ∃ det, buildOne reg params cfg d = Except.ok det) →
        buildOne reg params cfg dt = Except.error e →
        getDetectors reg params cfg (pre ++ dt :: post) = Except.error e) := by
  constructor
  · intro types
    induction types with
    | nil =>
        intro l hl
        simp only [getDetectors] at hl
        injection hl with h
        subst h
        exact ⟨rfl, fun i hi _ => absurd hi (Nat.not_lt_zero i)⟩
    | cons t rest ih =>
        intro l hl
        cases hb : buildOne reg params cfg t with
        | error e =>
            rw [getDetectors_cons_err reg params cfg t rest e hb] at hl
            exact absurd hl (by simp)
        | ok det =>
            rw [getDetectors_cons_ok reg params cfg t rest det hb] at hl
            cases hr : getDetectors reg params cfg rest with
            | error e =>
                simp only [hr] at hl
                exact absurd hl (by simp)
            | ok ds =>
                simp only [hr] at hl
                injection hl with h
                subst h
                obtain ⟨ihlen, ihidx⟩ := ih ds hr
                refine ⟨by simp [ihlen], ?_⟩
                intro i hi hl'
                cases i with
                | zero => exact hb
                | succ n =>
                    have hn : n < rest.length := by simpa using hi
                    have hn' : n < ds.length := by simpa using hl'
                    exact ihidx n hn hn'
  · intro pre
    induction pre with
    | nil =>
        intro dt post e _ hb
        simpa using getDetectors_cons_err reg params cfg dt post e hb
    | cons d pre' ih =>
        intro dt post e hpre hb
        obtain ⟨det, hdet⟩ := hpre d (List.mem_cons_self d pre')
        have hrest : getDetectors reg params cfg (pre' ++ dt :: post) = Except.error e :=
          ih dt post e (fun x hx => hpre x (List.mem_cons_of_mem d hx)) hb
        rw [show (d :: pre') ++ dt :: post = d :: (pre' ++ dt :: post) from rfl]
        rw [getDetectors_cons_ok reg params cfg d _ det hdet, hrest]

/-- Witness for C8: requesting `["env", "bogus"]` against a registry knowing
only `"env"` fails with the unknown-key error for `"bogus"`. -/
theorem getDetectors_spec_witness :
    getDetectors regW paramsW cfgW ["env", "bogus"]
      = Except.error ("invalid detector key: " ++ "bogus") :=
  (getDetectors_spec regW paramsW cfgW).2 ["env"] "bogus" []
    ("invalid detector key: " ++ "bogus")
    (fun d hd => by
      have hde : d = "env" := by simpa using hd
      exact hde ▸ ⟨detOkA, rfl⟩)
    rfl

/-- C3 (code bug): the detection pass of `Get` runs under a context whose
timeout comes from `client.Timeout`, not from the provider's configured
`timeout` field, which is stored but never read: a provider configured with
timeout 300 whose caller passes a client with timeout 7 runs its detectors
under a 7-unit deadline. -/
theorem get_timeout_from_client_not_provider :
    (NewResourceProvider () 300 [] [ctxProbe]).timeout = 300 ∧
    (((NewResourceProvider () 300 [] [ctxProbe]).Get ctxNone ⟨7⟩).2.resource).attributes
      = [("ctx-timeout", Value.int 7)] := by
  constructor <;> rfl
